import Mathlib

/-!
Verification development for the single-endpoint analysis service (`app.py`).

The service's algorithmic core is modelled shallowly over `List Char`
(Python `str` values are sequences of characters):

* `json_loads` models the standard library's `json.loads` with default
  settings: the full RFC-8259 grammar plus Python's accepted extensions
  (`NaN`, `Infinity`, `-Infinity`), strict rejection of raw control
  characters in strings, and the exact `NUMBER_RE` maximal-munch number
  lexing.  Scalars are kept at the lexeme level (numbers by their source
  lexeme, strings by their raw quoted content with escapes validated but
  not decoded) and object members are kept as an ordered association
  list: every claim below compares values produced by parsing, so
  lexeme-level equality is exactly the equality that is observable.
* `extract_json_from_text` models the tiered JSON Recovery Engine
  (fence stripping, direct parse, balanced-array extraction,
  balanced-object extraction, terminal failure).
* `recover_response` models the endpoint's handling of the recovery
  outcome (the value, the last-resort re-parse, or the structured
  failure payload).
* `scrape_phase`, `tableToScraped` and `full_prompt` model the scrape
  trigger, the table serialization with its row cap, and the prompt
  assembly; network fetching and HTML parsing are external effects and
  enter as an explicit oracle argument (`FetchResult`).
-/

/-! ### Python string primitives -/

/-- The characters stripped by Python's `str.strip()` (the ASCII whitespace
set; the model does not cover the exotic Unicode whitespace code points,
which no claim exercises). -/
def isPyWs (c : Char) : Bool :=
  c = ' ' || c = '\t' || c = '\n' || c = '\r' || c = '\x0b' || c = '\x0c'

/-- Python `str.strip()`: drop whitespace from both ends. -/
def pyStrip (l : List Char) : List Char :=
  ((l.dropWhile isPyWs).reverse.dropWhile isPyWs).reverse

/-- Scan a text left to right for the first occurrence of `needle`,
reporting its index; `i` is the index of the head of the remaining text.
This is the search loop behind Python's `str.find`. -/
def findFrom (needle : List Char) : List Char → Nat → Option Nat
  | [], i => if needle.isEmpty then some i else none
  | c :: rest, i =>
    if needle.isPrefixOf (c :: rest) then some i else findFrom needle rest (i + 1)

/-- Python `hay.find(needle, start)`; `none` plays the role of `-1`. -/
def pyFind (hay needle : List Char) (start : Nat) : Option Nat :=
  findFrom needle (hay.drop start) start

/-- Python's `needle in hay` substring test. -/
def pyContains (hay needle : List Char) : Bool :=
  (pyFind hay needle 0).isSome

/-- Python slicing `l[a:b]` for `a ≤ b` (the only way the source uses it). -/
def pySlice (l : List Char) (a b : Nat) : List Char :=
  (l.drop a).take (b - a)

/-- The opening-brace and closing-brace characters (by code point). -/
def lbrace : Char := Char.ofNat 123

/-- The closing brace. -/
def rbrace : Char := Char.ofNat 125

/-- The backtick character (by code point). -/
def btick : Char := Char.ofNat 96

/-! ### The JSON value model and `json.loads` -/

/-- A parsed JSON value as `json.loads` yields it, kept at lexeme level:
`num` stores the number's source lexeme, `str` stores the raw quoted
content (escape sequences validated during parsing but left undecoded),
and `obj` stores the members as an ordered association list.  All claims
compare values that come out of `json_loads`, so this representation
distinguishes exactly the observable outcomes. -/
inductive Json where
  | null
  | bool (b : Bool)
  | num (lexeme : List Char)
  | str (content : List Char)
  | arr (elems : List Json)
  | obj (members : List (List Char × Json))

/-- JSON insignificant whitespace (space, tab, newline, carriage return),
exactly the set skipped by Python's `json` scanner. -/
def isJsonWs (c : Char) : Bool :=
  c = ' ' || c = '\t' || c = '\n' || c = '\r'

/-- Skip insignificant JSON whitespace. -/
def skipJsonWs (l : List Char) : List Char :=
  l.dropWhile isJsonWs

/-- ASCII decimal digit test. -/
def isDig (c : Char) : Bool := '0' ≤ c && c ≤ '9'

/-- ASCII hexadecimal digit test (for `\uXXXX` escapes). -/
def isHexDig (c : Char) : Bool :=
  isDig c || ('a' ≤ c && c ≤ 'f') || ('A' ≤ c && c ≤ 'F')

/-- The single-character escapes JSON permits after a backslash. -/
def isEscChar (c : Char) : Bool :=
  c = '"' || c = '\\' || c = '/' || c = 'b' || c = 'f' || c = 'n' || c = 'r' || c = 't'

/-- Lex a JSON string body (the opening quote already consumed): return the
raw content up to the closing quote and the remaining input.  Escape
sequences are validated (including the four hex digits of `\uXXXX`) and
kept verbatim; raw control characters below U+0020 are rejected, matching
`json.loads`' default strict mode. -/
def lexStringBody : List Char → Option (List Char × List Char)
  | [] => none
  | '\\' :: 'u' :: h1 :: h2 :: h3 :: h4 :: rest =>
    if isHexDig h1 && isHexDig h2 && isHexDig h3 && isHexDig h4 then
      (lexStringBody rest).map (fun p => ('\\' :: 'u' :: h1 :: h2 :: h3 :: h4 :: p.1, p.2))
    else none
  | '\\' :: e :: rest =>
    if isEscChar e then
      (lexStringBody rest).map (fun p => ('\\' :: e :: p.1, p.2))
    else none
  | c :: rest =>
    if c = '"' then some ([], rest)
    else if c = '\\' then none
    else if c.toNat < 32 then none
    else (lexStringBody rest).map (fun p => (c :: p.1, p.2))

/-- Split off a maximal run of decimal digits. -/
def digitSpan (l : List Char) : List Char × List Char :=
  (l.takeWhile isDig, l.dropWhile isDig)

/-- Lex the optional fraction and exponent of a number, mirroring the
maximal-munch behaviour of the scanner's number pattern
`(\.\d+)?([eE][-+]?\d+)?`: an ill-formed fraction or exponent is simply
not consumed. -/
def lexFracExp (rest : List Char) : List Char × List Char :=
  let fr : List Char × List Char :=
    match rest with
    | '.' :: r =>
      let d := digitSpan r
      if d.1 = [] then ([], rest) else ('.' :: d.1, d.2)
    | _ => ([], rest)
  let ex : List Char × List Char :=
    match fr.2 with
    | c :: r =>
      if c = 'e' || c = 'E' then
        match r with
        | c2 :: r2 =>
          if c2 = '+' || c2 = '-' then
            let d := digitSpan r2
            if d.1 = [] then ([], fr.2) else (c :: c2 :: d.1, d.2)
          else
            let d := digitSpan r
            if d.1 = [] then ([], fr.2) else (c :: d.1, d.2)
        | [] => ([], fr.2)
      else ([], fr.2)
    | [] => ([], fr.2)
  (fr.1 ++ ex.1, ex.2)

/-- Lex a number lexeme following the scanner's pattern
`-?(0|[1-9]\d*)(\.\d+)?([eE][-+]?\d+)?` (leading zeros end the integer
part, as in the regular expression's alternation). -/
def lexNumber (s : List Char) : Option (List Char × List Char) :=
  let sign : List Char × List Char :=
    match s with
    | '-' :: r => (['-'], r)
    | _ => ([], s)
  match sign.2 with
  | [] => none
  | c :: r =>
    if c = '0' then
      let fe := lexFracExp r
      some (sign.1 ++ '0' :: fe.1, fe.2)
    else if isDig c then
      let d := digitSpan r
      let fe := lexFracExp d.2
      some (sign.1 ++ c :: (d.1 ++ fe.1), fe.2)
    else none

mutual

/-- Parse one JSON value at the head of the input (leading whitespace
already skipped by the caller), following the dispatch order of Python's
scanner: string, object, array, `null`, `true`, `false`, number, and the
accepted non-standard constants.  `fuel` only ensures totality. -/
def parseValue : Nat → List Char → Option (Json × List Char)
  | 0, _ => none
  | fuel + 1, s =>
    match s with
    | [] => none
    | c :: r =>
      if c = '"' then
        match lexStringBody r with
        | some (content, rest) => some (.str content, rest)
        | none => none
      else if c = lbrace then
        match skipJsonWs r with
        | c2 :: r2 =>
          if c2 = rbrace then some (.obj [], r2)
          else
            match parseMembers fuel (c2 :: r2) with
            | some (ms, rest) => some (.obj ms, rest)
            | none => none
        | [] => none
      else if c = '[' then
        match skipJsonWs r with
        | c2 :: r2 =>
          if c2 = ']' then some (.arr [], r2)
          else
            match parseElems fuel (c2 :: r2) with
            | some (es, rest) => some (.arr es, rest)
            | none => none
        | [] => none
      else if (("null").toList).isPrefixOf s then some (.null, s.drop 4)
      else if (("true").toList).isPrefixOf s then some (.bool true, s.drop 4)
      else if (("false").toList).isPrefixOf s then some (.bool false, s.drop 5)
      else
        match lexNumber s with
        | some (lexeme, rest) => some (.num lexeme, rest)
        | none =>
          if (("NaN").toList).isPrefixOf s then some (.num (("NaN").toList), s.drop 3)
          else if (("Infinity").toList).isPrefixOf s then
            some (.num (("Infinity").toList), s.drop 8)
          else if (("-Infinity").toList).isPrefixOf s then
            some (.num (("-Infinity").toList), s.drop 9)
          else none

/-- Parse one or more comma-separated array elements up to the closing
bracket (the empty array is handled by the caller). -/
def parseElems : Nat → List Char → Option (List Json × List Char)
  | 0, _ => none
  | fuel + 1, s =>
    match parseValue fuel s with
    | none => none
    | some (v, r) =>
      match skipJsonWs r with
      | c :: r2 =>
        if c = ',' then
          match parseElems fuel (skipJsonWs r2) with
          | some (vs, rest) => some (v :: vs, rest)
          | none => none
        else if c = ']' then some ([v], r2)
        else none
      | [] => none

/-- Parse one or more comma-separated object members up to the closing
brace (the empty object is handled by the caller). -/
def parseMembers : Nat → List Char → Option (List (List Char × Json) × List Char)
  | 0, _ => none
  | fuel + 1, s =>
    match s with
    | [] => none
    | c :: r =>
      if c = '"' then
        match lexStringBody r with
        | none => none
        | some (key, r1) =>
          match skipJsonWs r1 with
          | c2 :: r2 =>
            if c2 = ':' then
              match parseValue fuel (skipJsonWs r2) with
              | none => none
              | some (v, r3) =>
                match skipJsonWs r3 with
                | c4 :: r4 =>
                  if c4 = ',' then
                    match parseMembers fuel (skipJsonWs r4) with
                    | some (ms, rest) => some ((key, v) :: ms, rest)
                    | none => none
                  else if c4 = rbrace then some ([(key, v)], r4)
                  else none
                | [] => none
            else none
          | [] => none
      else none

end

/-- Model of `json.loads`: skip surrounding whitespace, parse one value,
and reject trailing data.  The fuel `2 * length + 4` dominates the
parser's call depth (every two nested calls consume at least one
character). -/
def json_loads (s : List Char) : Option Json :=
  match parseValue (2 * s.length + 4) (skipJsonWs s) with
  | some (v, rest) => if skipJsonWs rest = [] then some v else none
  | none => none

/-! ### The Recovery Engine (`extract_json_from_text`, `app.py` lines 13-84) -/

/-- The code-fence marker. -/
def fenceMark : List Char := ("```").toList

/-- The JSON-tagged code-fence opener. -/
def jsonFenceMark : List Char := ("```json").toList

/-- The message of the `ValueError` raised when every tier fails. -/
def valueErrorMsg : List Char := ("Could not extract valid JSON from response").toList

/-- The fence-stripping tier (lines 17-27): if the text contains
`` ```json `` take the content from just after it to the next `` ``` ``
and strip it; otherwise do the same for a bare `` ``` ``; in either case,
when no closing marker follows, the text is left untouched. -/
def stripFences (text : List Char) : List Char :=
  match pyFind text jsonFenceMark 0 with
  | some i =>
    match pyFind text fenceMark (i + 7) with
    | some e => pyStrip (pySlice text (i + 7) e)
    | none => text
  | none =>
    match pyFind text fenceMark 0 with
    | some i =>
      match pyFind text fenceMark (i + 3) with
      | some e => pyStrip (pySlice text (i + 3) e)
      | none => text
    | none => text

/-- The bracket-counting loop (lines 43-50 and 66-73): starting at an
occurrence of `openC`, count nesting depth and report the length of the
substring ending where the depth returns to zero, or `none` if it never
does. -/
def matchLen (openC closeC : Char) : List Char → Int → Option Nat
  | [], _ => none
  | c :: rest, count =>
    if c = openC then (matchLen openC closeC rest (count + 1)).map (· + 1)
    else if c = closeC then
      if count = 1 then some 1
      else (matchLen openC closeC rest (count - 1)).map (· + 1)
    else (matchLen openC closeC rest count).map (· + 1)

/-- A balanced-delimiter candidate substring: from the first `openC` to
the position where the nesting count returns to zero. -/
def balancedCandidate (openC closeC : Char) (cleaned : List Char) : Option (List Char) :=
  match findFrom [openC] cleaned 0 with
  | none => none
  | some s =>
    match matchLen openC closeC (cleaned.drop s) 0 with
    | none => none
    | some len => some ((cleaned.drop s).take len)

/-- The balanced-array tier (lines 38-58): extract the first balanced
`[`/`]` candidate and parse it; `none` both when no candidate exists and
when the candidate fails to parse (either way control falls through). -/
def arrayExtract (cleaned : List Char) : Option Json :=
  match balancedCandidate '[' ']' cleaned with
  | some cand => json_loads cand
  | none => none

/-- The balanced-object tier (lines 61-81), tried after the array tier. -/
def objectExtract (cleaned : List Char) : Option Json :=
  match balancedCandidate lbrace rbrace cleaned with
  | some cand => json_loads cand
  | none => none

/-- Tiers two to five on the fence-stripped text: direct parse, balanced
array, balanced object, terminal `ValueError`. -/
def recover_from_cleaned (cleaned : List Char) : Except (List Char) Json :=
  match json_loads cleaned with
  | some v => .ok v
  | none =>
    match arrayExtract cleaned with
    | some v => .ok v
    | none =>
      match objectExtract cleaned with
      | some v => .ok v
      | none => .error valueErrorMsg

/-- `extract_json_from_text` (lines 13-84): fence stripping followed by
the parsing tiers; `.error` models the raised `ValueError`. -/
def extract_json_from_text (text : List Char) : Except (List Char) Json :=
  recover_from_cleaned (stripFences text)

/-! ### The endpoint's handling of the recovery outcome (lines 218-243) -/

/-- The JSON body returned by the endpoint after a model response: either
the recovered value or the structured failure payload
`\x7b"error", "raw_response", "response_length", "details"\x7d`.  Both
constructors are returned with HTTP status 200; no exception escapes this
stage. -/
inductive ApiOutcome where
  | value (v : Json)
  | failurePayload (error : List Char) (raw_response : List Char)
      (response_length : Nat) (details : List Char)

/-- Lines 218-243: run the Recovery Engine; on its `ValueError`, try a
last direct parse of the stripped text; otherwise return the structured
failure payload carrying the error kind, the first 500 characters of the
response, its full length, and the diagnostic detail. -/
def recover_response (generated_text : List Char) : ApiOutcome :=
  match extract_json_from_text generated_text with
  | .ok v => .value v
  | .error e =>
    match json_loads (pyStrip generated_text) with
    | some v => .value v
    | none =>
      .failurePayload (("Could not parse JSON").toList) (generated_text.take 500)
        generated_text.length e

/-! ### Scrape trigger, table serialization, prompt assembly (lines 107-194) -/

/-- The scrape trigger (line 109): the request text contains the
case-sensitive substring `wikipedia.org`, or contains `scrape` after
lowercasing. -/
def scrape_trigger (questions_text : List Char) : Bool :=
  pyContains questions_text (("wikipedia.org").toList) ||
    pyContains (questions_text.map Char.toLower) (("scrape").toList)

/-- Try to match `https?://[^\s]+` at the head of `l` (the optional `s`
is tried greedily first, as the regular expression does); the match
requires at least one non-whitespace character after the scheme. -/
def urlMatchAt (l : List Char) : Option (List Char) :=
  if (("https://").toList).isPrefixOf l then
    let tok := (l.drop 8).takeWhile (fun c => !(isPyWs c))
    if tok = [] then none else some ((("https://").toList) ++ tok)
  else if (("http://").toList).isPrefixOf l then
    let tok := (l.drop 7).takeWhile (fun c => !(isPyWs c))
    if tok = [] then none else some ((("http://").toList) ++ tok)
  else none

/-- `re.search(r'https?://[^\s]+', text)` (line 111): the leftmost match. -/
def url_search : List Char → Option (List Char)
  | [] => none
  | c :: r =>
    match urlMatchAt (c :: r) with
    | some m => some m
    | none => url_search r

/-- The outcome of the fetch-and-parse attempt inside the `try` block
(lines 114-123), supplied as an oracle because the network and the HTML
parser are external: either an exception (transport error, error status
raised by `raise_for_status`, or any processing failure) carrying its
message, or the fetched page represented by its first `wikitable`-class
table — `none` when the page has no such table — as rows of raw cell
texts (the `get_text()` of each `th`/`td`). -/
inductive FetchResult where
  | exn (msg : List Char)
  | page (wikitable : Option (List (List (List Char))))

/-- Lines 130-133: the header cells are the first row's cell texts,
stripped; no rows means no headers. -/
def processedHeaderCells (tbl : List (List (List Char))) : List (List Char) :=
  match tbl with
  | [] => []
  | r0 :: _ => r0.map pyStrip

/-- Lines 136-141: the data rows are all rows after the first, cells
stripped, rows with no cells skipped. -/
def processedRows (tbl : List (List (List Char))) : List (List (List Char)) :=
  ((tbl.drop 1).map (fun r => r.map pyStrip)).filter (fun r => !r.isEmpty)

/-- Python `sep.join(xs)`. -/
def joinSep (sep : List Char) : List (List Char) → List Char
  | [] => []
  | [x] => x
  | x :: y :: rest => x ++ sep ++ joinSep sep (y :: rest)

/-- Lines 147-148: the data lines actually serialized into the
scraped-data block — the first 100 processed rows, comma-joined, one
line each.  `100` is the configured row cap. -/
def serializedDataRows (rows : List (List (List Char))) : List (List Char) :=
  (rows.take 100).map (fun r => joinSep ((",").toList) r ++ ['\n'])

/-- Lines 143-148: serialize a found table into the scraped-data text;
empty when there are no headers or no data rows. -/
def tableToScraped (url : List Char) (tbl : List (List (List Char))) : List Char :=
  let headerCells := processedHeaderCells tbl
  let rows := processedRows tbl
  if !headerCells.isEmpty && !rows.isEmpty then
    (("Scraped Data from ").toList) ++ url ++ ((":\n").toList) ++
      joinSep ((",").toList) headerCells ++ ['\n'] ++ (serializedDataRows rows).flatten
  else []

/-- Lines 107-151: the whole scrape phase, producing the `scraped_data`
string.  The `try`/`except` around the fetch means this phase is a total
function of the request text and the fetch oracle: no branch aborts the
request. -/
def scrape_phase (questions_text : List Char)
    (fetch : List Char → FetchResult) : List Char :=
  if scrape_trigger questions_text then
    match url_search questions_text with
    | none => []
    | some url =>
      match fetch url with
      | .exn msg => (("Error scraping data: ").toList) ++ msg
      | .page none => []
      | .page (some tbl) => tableToScraped url tbl
  else []

/-- The fixed instruction template of lines 175-191, up to the point
where the request text is interpolated. -/
def instructionBlock : List Char :=
  ("You are a data analyst with web scraping and data analysis capabilities.\n\nCRITICAL INSTRUCTIONS:\n- Respond with ONLY valid JSON - no markdown code blocks, no explanations, no extra text\n- Do NOT wrap response in ```json``` or ``` blocks\n- Return raw JSON array or object only\n- For visualizations: return as base64 data URI in the JSON\n- Ensure the entire response is complete valid JSON - do not truncate\n\nFor web scraping requests:\n1. Use the provided scraped data below\n2. Perform precise analysis on the actual data\n3. Return exact numerical values, not approximations\n4. For plots: generate actual matplotlib plots as base64 PNG data URI under 50KB (keep it smaller)\n5. Make sure base64 strings are complete and not cut off\n\nRequest to process:\n").toList

/-- Lines 154-172: the labelled prompt parts (the scraped-data part only
when the scrape produced text; the image and CSV parts only when those
uploads are present). -/
def prompt_parts (questions_text scraped : List Char)
    (image csv : Option (List Char)) : List (List Char) :=
  [(("Questions: ").toList) ++ questions_text] ++
    (if scraped.isEmpty then [] else [(("Scraped Data: ").toList) ++ scraped]) ++
    (match image with
     | some filename => [(("Image file provided: ").toList) ++ filename]
     | none => []) ++
    (match csv with
     | some csvText => [(("CSV Data: ").toList) ++ csvText]
     | none => [])

/-- Lines 175-194: the full prompt sent to the model — the instruction
template, the request text, and the non-question parts joined by
newlines. -/
def full_prompt (questions_text scraped : List Char)
    (image csv : Option (List Char)) : List Char :=
  instructionBlock ++ questions_text ++ (("\n\n").toList) ++
    joinSep (("\n").toList)
      (((prompt_parts questions_text scraped image csv).drop 1).filter (fun p => !p.isEmpty))

/-! ### Helper lemmas on the string-search primitives -/

/-- A list is a Boolean prefix of itself followed by anything. -/
theorem isPrefixOf_append_self (l t : List Char) : l.isPrefixOf (l ++ t) = true := by
  induction l with
  | nil => simp [List.isPrefixOf]
  | cons c r ih => simp [List.isPrefixOf, ih]

/-- Searching from index `i` just shifts the reported index by `i`. -/
theorem findFrom_shift (nd l : List Char) : ∀ i : Nat,
    findFrom nd l i = (findFrom nd l 0).map (· + i) := by
  induction l with
  | nil =>
    intro i
    by_cases h : nd.isEmpty
    · simp [findFrom, h]
    · simp [findFrom, h]
  | cons c rest ih =>
    intro i
    by_cases h : nd.isPrefixOf (c :: rest) <;> simp only [findFrom, h, if_true, if_false]
    · simp
    · rw [ih (i + 1), ih 1]
      cases h0 : findFrom nd rest 0
      · simp
      · simp
        omega

/-- The empty needle is found immediately. -/
theorem findFrom_nil_needle (l : List Char) (i : Nat) : findFrom [] l i = some i := by
  cases l <;> simp [findFrom, List.isPrefixOf]

/-- A nonempty search can only fail for a nonempty needle. -/
theorem ne_nil_of_findFrom_none {nd l : List Char} {i : Nat}
    (h : findFrom nd l i = none) : nd ≠ [] := by
  intro he
  subst he
  rw [findFrom_nil_needle] at h
  exact Option.noConfusion h

/-- A needle starts as a match of itself. -/
theorem findFrom_self (nd : List Char) (hnd : nd ≠ []) (r : List Char) (i : Nat) :
    findFrom nd (nd ++ r) i = some i := by
  obtain ⟨c, nd', rfl⟩ := List.exists_cons_of_ne_nil hnd
  simp [findFrom, isPrefixOf_append_self]

/-- The first occurrence of a character that is absent from the text's
head segment is right after that segment. -/
theorem findFrom_char_append (c : Char) (p : List Char) (hp : c ∉ p) (rest : List Char) :
    findFrom [c] (p ++ c :: rest) 0 = some p.length := by
  induction p with
  | nil => simp [findFrom, List.isPrefixOf]
  | cons a p' ih =>
    have ha : (c == a) = false := by
      simp only [beq_eq_false_iff_ne, ne_eq]
      intro h
      exact hp (h ▸ List.mem_cons_self a p')
    have hp' : c ∉ p' := fun h => hp (List.mem_cons_of_mem a h)
    simp only [List.cons_append, findFrom, List.isPrefixOf, ha, Bool.false_and,
      Bool.false_eq_true, if_false, List.append_eq]
    rw [findFrom_shift, ih hp']
    simp

/-- A successful depth-counting scan is unaffected by text appended after
the position where the count returns to zero. -/
theorem matchLen_append (o k : Char) (t : List Char) : ∀ (l : List Char) (cnt : Int) (r : Nat),
    matchLen o k l cnt = some r → matchLen o k (l ++ t) cnt = some r := by
  intro l
  induction l with
  | nil => intro cnt r h; simp [matchLen] at h
  | cons c l' ih =>
    intro cnt r h
    simp only [matchLen, List.cons_append, List.append_eq] at h ⊢
    by_cases hc : c = o
    · simp only [hc, if_true] at h ⊢
      obtain ⟨r', hr', rfl⟩ := Option.map_eq_some'.mp h
      rw [ih _ _ hr']
      rfl
    · simp only [hc, if_false] at h ⊢
      by_cases hk : c = k
      · simp only [hk, if_true] at h ⊢
        by_cases h1 : cnt = 1
        · simp only [h1, if_true] at h ⊢
          exact h
        · simp only [h1, if_false] at h ⊢
          obtain ⟨r', hr', rfl⟩ := Option.map_eq_some'.mp h
          rw [ih _ _ hr']
          rfl
      · simp only [hk, if_false] at h ⊢
        obtain ⟨r', hr', rfl⟩ := Option.map_eq_some'.mp h
        rw [ih _ _ hr']
        rfl

/-- A needle free of newlines cannot straddle a newline: a match inside
`s ++ '\n' :: u` that starts inside `s` lies entirely inside `s`. -/
theorem isPrefixOf_newline_boundary (nd : List Char) (hn : '\n' ∉ nd) :
    ∀ (s u : List Char), nd.isPrefixOf (s ++ '\n' :: u) = true → nd.isPrefixOf s = true := by
  induction nd with
  | nil => intro s u _; simp [List.isPrefixOf]
  | cons d nd' ih =>
    intro s u h
    cases s with
    | nil =>
      simp only [List.nil_append, List.isPrefixOf, Bool.and_eq_true, beq_iff_eq] at h
      exact absurd (h.1 ▸ List.mem_cons_self d nd') hn
    | cons a s' =>
      simp only [List.cons_append, List.isPrefixOf, Bool.and_eq_true] at h ⊢
      exact ⟨h.1, ih (fun hm => hn (List.mem_cons_of_mem d hm)) s' u h.2⟩

/-- If a newline-free needle does not occur in `s`, then in
`s ++ '\n' :: nd` its first occurrence is exactly the trailing copy. -/
theorem findFrom_closing (nd : List Char) (hn : '\n' ∉ nd) :
    ∀ (s : List Char) (i : Nat), findFrom nd s 0 = none →
      findFrom nd (s ++ '\n' :: nd) i = some (i + s.length + 1) := by
  intro s
  induction s with
  | nil =>
    intro i hs
    have hnd := ne_nil_of_findFrom_none hs
    obtain ⟨d, nd', rfl⟩ := List.exists_cons_of_ne_nil hnd
    have hd : (d == '\n') = false := by
      simp only [beq_eq_false_iff_ne, ne_eq]
      intro h
      exact hn (h ▸ List.mem_cons_self d nd')
    simp [findFrom, List.isPrefixOf, hd, isPrefixOf_append_self]
  | cons a s' ih =>
    intro i hs
    have hnd := ne_nil_of_findFrom_none hs
    have hpre : nd.isPrefixOf (a :: s') = false := by
      by_contra hcon
      simp only [findFrom, Bool.not_eq_false] at hs hcon
      rw [hcon] at hs
      exact Option.noConfusion hs
    have hs' : findFrom nd s' 0 = none := by
      simp only [findFrom, hpre, if_false] at hs
      rw [findFrom_shift] at hs
      cases h0 : findFrom nd s' 0
      · rfl
      · rw [h0] at hs; exact Option.noConfusion hs
    have hpre2 : nd.isPrefixOf (a :: (s' ++ '\n' :: nd)) = false := by
      by_contra hcon
      simp only [Bool.not_eq_false] at hcon
      have := isPrefixOf_newline_boundary nd hn (a :: s') nd hcon
      rw [this] at hpre
      exact Bool.noConfusion hpre
    simp only [List.cons_append, List.append_eq, findFrom, hpre2, Bool.false_eq_true,
      if_false]
    rw [ih (i + 1) hs']
    congr 1
    simp
    omega

/-! ### Helper lemmas on `pyStrip` -/

/-- If stripping changes nothing, neither one-sided pass drops anything. -/
theorem pyStrip_fix_parts (s : List Char) (h : pyStrip s = s) :
    s.dropWhile isPyWs = s ∧ s.reverse.dropWhile isPyWs = s.reverse := by
  have hlen2 : (((s.dropWhile isPyWs).reverse.dropWhile isPyWs)).length = s.length := by
    have := congrArg List.length h
    simpa [pyStrip] using this
  have hle1 : (s.dropWhile isPyWs).length ≤ s.length :=
    (List.dropWhile_suffix isPyWs).length_le
  have hle2 : ((s.dropWhile isPyWs).reverse.dropWhile isPyWs).length ≤
      (s.dropWhile isPyWs).length := by
    have := (List.dropWhile_suffix (l := (s.dropWhile isPyWs).reverse) isPyWs).length_le
    simpa using this
  have h1 : s.dropWhile isPyWs = s := by
    refine (List.dropWhile_suffix isPyWs).eq_of_length ?_
    omega
  refine ⟨h1, ?_⟩
  refine (List.dropWhile_suffix isPyWs).eq_of_length ?_
  rw [h1] at hlen2
  simpa using hlen2

/-- Wrapping an already-stripped nonempty text in single newlines and
stripping recovers the text. -/
theorem pyStrip_newline_wrap (s : List Char) (hne : s ≠ []) (h : pyStrip s = s) :
    pyStrip ('\n' :: (s ++ ['\n'])) = s := by
  obtain ⟨hfront, hback⟩ := pyStrip_fix_parts s h
  obtain ⟨a, s', rfl⟩ := List.exists_cons_of_ne_nil hne
  have dwnl : ∀ X : List Char, List.dropWhile isPyWs ('\n' :: X) = List.dropWhile isPyWs X :=
    fun _ => rfl
  have ha : isPyWs a = false := by
    cases hpa : isPyWs a with
    | false => rfl
    | true =>
      exfalso
      rw [List.dropWhile_cons, hpa] at hfront
      simp only [if_true] at hfront
      have hle := (List.dropWhile_suffix (l := s') isPyWs).length_le
      have hlen := congrArg List.length hfront
      simp only [List.length_cons] at hlen
      omega
  have f1 : List.dropWhile isPyWs ((a :: s') ++ ['\n']) = (a :: s') ++ ['\n'] := by
    rw [List.cons_append, List.dropWhile_cons, ha]
    simp
  have hrev : ((a :: s') ++ ['\n']).reverse = '\n' :: (a :: s').reverse := by
    simp
  show (((List.dropWhile isPyWs ('\n' :: ((a :: s') ++ ['\n']))).reverse.dropWhile
      isPyWs)).reverse = a :: s'
  rw [dwnl, f1, hrev, dwnl, hback, List.reverse_reverse]

/-- When the prose before an embedded balanced span contains no opening
delimiter and the span's delimiter counting closes exactly at its end,
the balanced-candidate scan recovers exactly the span, whatever follows. -/
theorem balancedCandidate_embed (o k : Char) (p body rest : List Char)
    (hp : o ∉ p) (hm : matchLen o k (o :: body) 0 = some (body.length + 1)) :
    balancedCandidate o k (p ++ (o :: body) ++ rest) = some (o :: body) := by
  have hshape : p ++ (o :: body) ++ rest = p ++ o :: (body ++ rest) := by
    simp
  rw [hshape]
  have hfind : findFrom [o] (p ++ o :: (body ++ rest)) 0 = some p.length :=
    findFrom_char_append o p hp (body ++ rest)
  have hdrop : (p ++ o :: (body ++ rest)).drop p.length = o :: (body ++ rest) :=
    List.drop_left p (o :: (body ++ rest))
  have hmatch : matchLen o k (o :: (body ++ rest)) 0 = some (body.length + 1) := by
    have h := matchLen_append o k rest (o :: body) 0 (body.length + 1) hm
    rwa [List.cons_append] at h
  have htake : (o :: (body ++ rest)).take (body.length + 1) = o :: body := by
    have h := List.take_left (o :: body) rest
    rwa [List.length_cons, List.cons_append] at h
  simp only [balancedCandidate, hfind, hdrop, hmatch, htake]

/-! ### C1 — balanced extraction of JSON embedded in bracket-noisy prose -/

/-- C1 counterexample: `[1, 2]` is valid JSON embedded in prose, and the
prose's decorative bracket pair `[ref]` is exactly the kind of noise the
claim says must not break extraction — yet the Recovery Engine's array
tier locks onto `[ref]`, the object tier finds no brace, and the whole
engine raises instead of returning `[1, 2]`. -/
theorem c1_counterexample :
    json_loads (("[1, 2]").toList) =
      some (Json.arr [Json.num (("1").toList), Json.num (("2").toList)]) ∧
    extract_json_from_text (("See [ref]: [1, 2]").toList) = .error valueErrorMsg :=
  ⟨rfl, rfl⟩

/-- C1 amended: balanced-counting extraction returns exactly the embedded
JSON value provided that (fence tier aside) the prose before the value
contains no opening delimiter of the value's kind, the value's own
delimiter counting closes exactly at its end, the whole text does not
itself parse, and — for an embedded object — the array tier yields
nothing.  Under those conditions closing-bracket noise anywhere and any
trailing prose are harmless. -/
theorem c1_amended :
    (∀ (p body rest : List Char) (v : Json),
      stripFences (p ++ ('[' :: body) ++ rest) = p ++ ('[' :: body) ++ rest →
      json_loads (p ++ ('[' :: body) ++ rest) = none →
      '[' ∉ p →
      matchLen '[' ']' ('[' :: body) 0 = some (body.length + 1) →
      json_loads ('[' :: body) = some v →
      extract_json_from_text (p ++ ('[' :: body) ++ rest) = .ok v) ∧
    (∀ (p body rest : List Char) (v : Json),
      stripFences (p ++ (lbrace :: body) ++ rest) = p ++ (lbrace :: body) ++ rest →
      json_loads (p ++ (lbrace :: body) ++ rest) = none →
      arrayExtract (p ++ (lbrace :: body) ++ rest) = none →
      lbrace ∉ p →
      matchLen lbrace rbrace (lbrace :: body) 0 = some (body.length + 1) →
      json_loads (lbrace :: body) = some v →
      extract_json_from_text (p ++ (lbrace :: body) ++ rest) = .ok v) := by
  constructor
  · intro p body rest v hstrip hwhole hp hm hv
    have hc := balancedCandidate_embed '[' ']' p body rest hp hm
    simp only [extract_json_from_text, hstrip, recover_from_cleaned, hwhole,
      arrayExtract, hc, hv]
  · intro p body rest v hstrip hwhole harr hp hm hv
    have hc := balancedCandidate_embed lbrace rbrace p body rest hp hm
    simp only [extract_json_from_text, hstrip, recover_from_cleaned, hwhole, harr,
      objectExtract, hc, hv]

/-- C1 witness: both amended cases at concrete bracket-noisy prose. -/
theorem c1_witness :
    extract_json_from_text
        ((("prose ] \x7d ").toList) ++ ('[' :: (("1, 2]").toList)) ++ ((" tail.").toList)) =
      .ok (Json.arr [Json.num (("1").toList), Json.num (("2").toList)]) ∧
    extract_json_from_text
        ((("note ] ").toList) ++ (lbrace :: (("\"x\": 1\x7d").toList)) ++ ((" end.").toList)) =
      .ok (Json.obj [((("x").toList), Json.num (("1").toList))]) :=
  ⟨c1_amended.1 (("prose ] \x7d ").toList) (("1, 2]").toList) ((" tail.").toList)
      (Json.arr [Json.num (("1").toList), Json.num (("2").toList)])
      rfl rfl (by decide) rfl rfl,
    c1_amended.2 (("note ] ").toList) (("\"x\": 1\x7d").toList) ((" end.").toList)
      (Json.obj [((("x").toList), Json.num (("1").toList))])
      rfl rfl rfl (by decide) rfl rfl⟩

/-! ### C2 — fixed tier order -/

/-- C2 counterexample: on `\x7b"a": [1]\x7d` both a parseable balanced
array candidate (`[1]`) and a parseable balanced object candidate (the
whole object) exist, yet the engine returns the object, not the array
candidate's value: the direct-parse tier precedes both scanning tiers. -/
theorem c2_counterexample :
    arrayExtract (("\x7b\"a\": [1]\x7d").toList) =
      some (Json.arr [Json.num (("1").toList)]) ∧
    objectExtract (("\x7b\"a\": [1]\x7d").toList) =
      some (Json.obj [((("a").toList), Json.arr [Json.num (("1").toList)])]) ∧
    extract_json_from_text (("\x7b\"a\": [1]\x7d").toList) =
      .ok (Json.obj [((("a").toList), Json.arr [Json.num (("1").toList)])]) ∧
    (Except.ok (Json.obj [((("a").toList), Json.arr [Json.num (("1").toList)])]) :
        Except (List Char) Json) ≠
      .ok (Json.arr [Json.num (("1").toList)]) :=
  ⟨rfl, rfl, rfl, fun h => Json.noConfusion (Except.ok.inj h)⟩

/-- C2 amended: the tier order is fence stripping, direct parse, balanced
array, balanced object — so whenever the direct parse of the cleaned text
fails and both a parseable balanced array candidate and a parseable
balanced object candidate exist, the array candidate's value is returned. -/
theorem c2_amended (text : List Char) (va vo : Json)
    (hd : json_loads (stripFences text) = none)
    (ha : arrayExtract (stripFences text) = some va)
    (_ho : objectExtract (stripFences text) = some vo) :
    extract_json_from_text text = .ok va := by
  simp only [extract_json_from_text, recover_from_cleaned, hd, ha]

/-- C2 witness: prose carrying both an array and an object. -/
theorem c2_witness :
    extract_json_from_text (("noise [1] and \x7b\"a\": 2\x7d here").toList) =
      .ok (Json.arr [Json.num (("1").toList)]) :=
  c2_amended (("noise [1] and \x7b\"a\": 2\x7d here").toList)
    (Json.arr [Json.num (("1").toList)])
    (Json.obj [((("a").toList), Json.num (("2").toList))]) rfl rfl rfl

/-! ### C3 — fenced code blocks with a language tag -/

/-- C3 counterexample: `42` is a valid JSON value, and
`` ```python\n42\n``` `` wraps it in a fenced block with a language tag —
but the code's fence stripping only drops the tag for the literal
`` ```json `` marker, so the candidate keeps the `python` tag, no tier
parses, and the engine raises instead of returning `42`. -/
theorem c3_counterexample :
    json_loads (("42").toList) = some (Json.num (("42").toList)) ∧
    extract_json_from_text (("```python\n42\n```").toList) = .error valueErrorMsg :=
  ⟨rfl, rfl⟩

/-- C3 amended: for a fenced block whose language tag is exactly `json`,
the Recovery Engine returns the wrapped value, provided the payload
carries no fence marker of its own and no surrounding whitespace. -/
theorem c3_amended (s : List Char) (v : Json)
    (hv : json_loads s = some v)
    (hf : findFrom fenceMark s 0 = none)
    (hst : pyStrip s = s) :
    extract_json_from_text (jsonFenceMark ++ '\n' :: (s ++ '\n' :: fenceMark)) = .ok v := by
  have hne : s ≠ [] := by
    intro h
    rw [h] at hv
    exact Option.noConfusion hv
  have hjlen : jsonFenceMark.length = 7 := rfl
  have hnm : jsonFenceMark ≠ [] := by decide
  -- the `` ```json `` marker is found at index 0
  have hjf : pyFind (jsonFenceMark ++ '\n' :: (s ++ '\n' :: fenceMark)) jsonFenceMark 0 =
      some 0 := by
    show findFrom jsonFenceMark ((jsonFenceMark ++ '\n' :: (s ++ '\n' :: fenceMark)).drop 0)
        0 = some 0
    rw [List.drop_zero]
    exact findFrom_self jsonFenceMark hnm _ 0
  -- dropping the marker leaves the newline-wrapped payload and the closer
  have hdrop7 : (jsonFenceMark ++ '\n' :: (s ++ '\n' :: fenceMark)).drop 7 =
      '\n' :: (s ++ '\n' :: fenceMark) := by
    have := List.drop_left jsonFenceMark ('\n' :: (s ++ '\n' :: fenceMark))
    rwa [hjlen] at this
  -- the closing fence is found right after the payload
  have hs' : findFrom fenceMark ('\n' :: s) 0 = none := by
    have hpre : fenceMark.isPrefixOf ('\n' :: s) = false := rfl
    simp only [findFrom, hpre, Bool.false_eq_true, if_false]
    rw [findFrom_shift, hf]
    rfl
  have hcf : pyFind (jsonFenceMark ++ '\n' :: (s ++ '\n' :: fenceMark)) fenceMark (0 + 7) =
      some (s.length + 9) := by
    show findFrom fenceMark
        ((jsonFenceMark ++ '\n' :: (s ++ '\n' :: fenceMark)).drop (0 + 7)) (0 + 7) = _
    rw [Nat.zero_add, hdrop7]
    have hsh : '\n' :: (s ++ '\n' :: fenceMark) = ('\n' :: s) ++ '\n' :: fenceMark := by
      simp
    rw [hsh]
    rw [findFrom_closing fenceMark (by decide) ('\n' :: s) 7 hs']
    simp only [List.length_cons, Option.some.injEq]
    omega
  -- the slice between the fences is the newline-wrapped payload
  have hslice : pySlice (jsonFenceMark ++ '\n' :: (s ++ '\n' :: fenceMark)) (0 + 7)
      (s.length + 9) = '\n' :: (s ++ ['\n']) := by
    show ((jsonFenceMark ++ '\n' :: (s ++ '\n' :: fenceMark)).drop (0 + 7)).take
        (s.length + 9 - (0 + 7)) = _
    rw [Nat.zero_add, hdrop7]
    have h2 : s.length + 9 - 7 = s.length + 2 := by omega
    rw [h2]
    have hsplit : s ++ '\n' :: fenceMark = (s ++ ['\n']) ++ fenceMark := by
      simp
    rw [show s.length + 2 = (s.length + 1) + 1 from rfl, List.take_succ_cons, hsplit,
      show s.length + 1 = (s ++ ['\n']).length by simp, List.take_left]
  simp only [extract_json_from_text, stripFences, hjf, hcf, hslice]
  rw [pyStrip_newline_wrap s hne hst]
  simp only [recover_from_cleaned, hv]

/-- C3 witness: the end-to-end scenario `` ```json\n[1,2,3]\n``` ``. -/
theorem c3_witness :
    extract_json_from_text
        (jsonFenceMark ++ '\n' :: ((("[1,2,3]").toList) ++ '\n' :: fenceMark)) =
      .ok (Json.arr [Json.num (("1").toList), Json.num (("2").toList),
        Json.num (("3").toList)]) :=
  c3_amended (("[1,2,3]").toList)
    (Json.arr [Json.num (("1").toList), Json.num (("2").toList), Json.num (("3").toList)])
    rfl rfl rfl

/-! ### C4 — end-to-end scenario C -/

/-- C4: on `Sure! Here is your answer: \x7b"x": 1\x7d Hope that helps.`
the fence tier leaves the text unchanged, the direct parse fails, the
array tier finds nothing, and the balanced-object tier recovers exactly
`\x7b"x": 1\x7d`, which the engine returns. -/
theorem c4_theorem :
    stripFences (("Sure! Here is your answer: \x7b\"x\": 1\x7d Hope that helps.").toList) =
      ("Sure! Here is your answer: \x7b\"x\": 1\x7d Hope that helps.").toList ∧
    json_loads (("Sure! Here is your answer: \x7b\"x\": 1\x7d Hope that helps.").toList) =
      none ∧
    arrayExtract (("Sure! Here is your answer: \x7b\"x\": 1\x7d Hope that helps.").toList) =
      none ∧
    objectExtract (("Sure! Here is your answer: \x7b\"x\": 1\x7d Hope that helps.").toList) =
      some (Json.obj [((("x").toList), Json.num (("1").toList))]) ∧
    extract_json_from_text
        (("Sure! Here is your answer: \x7b\"x\": 1\x7d Hope that helps.").toList) =
      .ok (Json.obj [((("x").toList), Json.num (("1").toList))]) :=
  ⟨rfl, rfl, rfl, rfl, rfl⟩

/-! ### C5 — round-trip on already-valid JSON text -/

/-- C5 counterexample: `"``` x ```"` is a valid, unwrapped JSON string —
`json.loads` returns it directly — but the fence tier sees the backtick
runs inside it, mangles the text to `x`, and the engine raises. -/
theorem c5_counterexample :
    json_loads (("\"``` x ```\"").toList) = some (Json.str (("``` x ```").toList)) ∧
    extract_json_from_text (("\"``` x ```\"").toList) = .error valueErrorMsg :=
  ⟨rfl, rfl⟩

/-- C5 amended: on text that parses as JSON and contains no fence marker,
the Recovery Engine returns exactly the directly parsed value. -/
theorem c5_amended (t : List Char) (v : Json)
    (hj : pyFind t jsonFenceMark 0 = none)
    (hfc : pyFind t fenceMark 0 = none)
    (hv : json_loads t = some v) :
    extract_json_from_text t = .ok v := by
  simp only [extract_json_from_text, stripFences, hj, hfc, recover_from_cleaned, hv]

/-- C5 witness: plain JSON text round-trips. -/
theorem c5_witness :
    extract_json_from_text (("[1, 2]").toList) =
      .ok (Json.arr [Json.num (("1").toList), Json.num (("2").toList)]) :=
  c5_amended (("[1, 2]").toList)
    (Json.arr [Json.num (("1").toList), Json.num (("2").toList)]) rfl rfl rfl

/-! ### C6 — terminal failure payload -/

/-- C6: when the Recovery Engine raises and the final direct re-parse
also fails, the endpoint returns (as a normal 200 body) the structured
failure payload with the error kind, a 500-character excerpt of the
response text, its length, and the diagnostic detail; the excerpt never
exceeds the 500-character cap. -/
theorem c6_theorem (t e : List Char)
    (hx : extract_json_from_text t = .error e)
    (hl : json_loads (pyStrip t) = none) :
    recover_response t =
      .failurePayload (("Could not parse JSON").toList) (t.take 500) t.length e ∧
    (t.take 500).length ≤ 500 := by
  constructor
  · simp only [recover_response, hx, hl]
  · exact List.length_take_le 500 t

/-- A needle whose first character never occurs in the text is never
found. -/
theorem findFrom_cons_none_of_notMem (d : Char) (nd' : List Char) :
    ∀ (l : List Char), d ∉ l → ∀ i, findFrom (d :: nd') l i = none := by
  intro l
  induction l with
  | nil => intro _ i; rfl
  | cons c r ih =>
    intro h i
    have hd : (d == c) = false := by
      simp only [beq_eq_false_iff_ne, ne_eq]
      intro he
      exact h (he ▸ List.mem_cons_self c r)
    simp only [findFrom, List.isPrefixOf, hd, Bool.false_and, Bool.false_eq_true, if_false]
    exact ih (fun hm => h (List.mem_cons_of_mem c hm)) (i + 1)

/-- Stripping a run of a non-whitespace character changes nothing. -/
theorem pyStrip_replicate (c : Char) (n : Nat) (h : isPyWs c = false) :
    pyStrip (List.replicate n c) = List.replicate n c := by
  cases n with
  | zero => rfl
  | succ m =>
    have h1 : List.dropWhile isPyWs (List.replicate (m + 1) c) = List.replicate (m + 1) c := by
      rw [List.replicate_succ, List.dropWhile_cons, h]
      simp
    have h2 : (List.replicate (m + 1) c).reverse = List.replicate (m + 1) c :=
      List.reverse_replicate _ _
    simp [pyStrip, h1, h2]

/-- The value dispatch rejects a text starting with `g` at once. -/
theorem parseValue_g (f : Nat) (r : List Char) : parseValue (f + 1) ('g' :: r) = none := rfl

/-- A run of `g`s is not JSON. -/
theorem json_loads_replicate_g (n : Nat) :
    json_loads (List.replicate (n + 1) 'g') = none := by
  have hsw : skipJsonWs (List.replicate (n + 1) 'g') = 'g' :: List.replicate n 'g' := by
    rw [List.replicate_succ]
    rfl
  simp only [json_loads, List.length_replicate, hsw]
  rw [show 2 * (n + 1) + 4 = (2 * (n + 1) + 3) + 1 by omega]
  rw [parseValue_g]

/-- On a run of `g`s every recovery tier fails. -/
theorem extract_replicate_g (n : Nat) :
    extract_json_from_text (List.replicate (n + 1) 'g') = .error valueErrorMsg := by
  have hbmem : btick ∉ List.replicate (n + 1) 'g' := by
    intro hm
    rw [List.mem_replicate] at hm
    exact absurd hm.2 (by decide)
  have hj : jsonFenceMark = btick :: (("``json").toList) := rfl
  have hfm : fenceMark = btick :: (("``").toList) := rfl
  have f1 : findFrom jsonFenceMark (List.replicate (n + 1) 'g') 0 = none := by
    rw [hj]
    exact findFrom_cons_none_of_notMem _ _ _ hbmem 0
  have f2 : findFrom fenceMark (List.replicate (n + 1) 'g') 0 = none := by
    rw [hfm]
    exact findFrom_cons_none_of_notMem _ _ _ hbmem 0
  have hstrip : stripFences (List.replicate (n + 1) 'g') = List.replicate (n + 1) 'g' := by
    simp only [stripFences, pyFind, List.drop_zero, f1, f2]
  have ha : arrayExtract (List.replicate (n + 1) 'g') = none := by
    have hm : '[' ∉ List.replicate (n + 1) 'g' := by
      intro hm
      rw [List.mem_replicate] at hm
      exact absurd hm.2 (by decide)
    have := findFrom_cons_none_of_notMem '[' [] (List.replicate (n + 1) 'g') hm 0
    simp only [arrayExtract, balancedCandidate, this]
  have ho : objectExtract (List.replicate (n + 1) 'g') = none := by
    have hm : lbrace ∉ List.replicate (n + 1) 'g' := by
      intro hm
      rw [List.mem_replicate] at hm
      exact absurd hm.2 (by decide)
    have := findFrom_cons_none_of_notMem lbrace [] (List.replicate (n + 1) 'g') hm 0
    simp only [objectExtract, balancedCandidate, this]
  simp only [extract_json_from_text, hstrip, recover_from_cleaned,
    json_loads_replicate_g, ha, ho]

/-- C6 witness: unparseable garbage of length 2000 (scenario D). -/
theorem c6_witness :
    recover_response (List.replicate 2000 'g') =
      .failurePayload (("Could not parse JSON").toList)
        ((List.replicate 2000 'g').take 500) (List.replicate 2000 'g').length
        valueErrorMsg ∧
    ((List.replicate 2000 'g').take 500).length ≤ 500 :=
  c6_theorem (List.replicate 2000 'g') valueErrorMsg
    (by rw [show (2000 : Nat) = 1999 + 1 from rfl]; exact extract_replicate_g 1999)
    (by rw [pyStrip_replicate 'g' 2000 rfl, show (2000 : Nat) = 1999 + 1 from rfl]
        exact json_loads_replicate_g 1999)

/-! ### C7 — soft scrape failures -/

/-- C7: when the trigger fires, a URL is found, and the fetch (or the
page processing inside the `try` block) fails, the request is not
aborted: the human-readable error string becomes the scraped-data
payload, and the pipeline goes on to build the model prompt with that
string embedded. -/
theorem c7_theorem (qt : List Char) (fetch : List Char → FetchResult) (url msg : List Char)
    (htr : scrape_trigger qt = true)
    (hu : url_search qt = some url)
    (hf : fetch url = .exn msg) :
    scrape_phase qt fetch = (("Error scraping data: ").toList) ++ msg ∧
    ∃ pre, full_prompt qt (scrape_phase qt fetch) none none =
      pre ++ ((("Error scraping data: ").toList) ++ msg) := by
  have h1 : scrape_phase qt fetch = (("Error scraping data: ").toList) ++ msg := by
    simp only [scrape_phase, htr, if_true, hu, hf]
  refine ⟨h1, instructionBlock ++ qt ++ (("\n\n").toList) ++ (("Scraped Data: ").toList), ?_⟩
  rw [h1]
  have hne : ((("Error scraping data: ").toList) ++ msg).isEmpty = false := rfl
  have hne2 : ((("Scraped Data: ").toList) ++
      ((("Error scraping data: ").toList) ++ msg)).isEmpty = false := rfl
  simp only [full_prompt, prompt_parts, hne, Bool.false_eq_true, if_false,
    List.cons_append, List.nil_append, List.drop_succ_cons, List.drop_zero,
    List.filter, hne2, Bool.not_false, joinSep, List.append_assoc]

/-- C7 witness: a failing fetch on a concrete scrape request. -/
theorem c7_witness :
    scrape_phase (("Please scrape http://example.org/t now").toList)
        (fun _ => .exn (("boom").toList)) =
      (("Error scraping data: ").toList) ++ (("boom").toList) ∧
    ∃ pre, full_prompt (("Please scrape http://example.org/t now").toList)
        (scrape_phase (("Please scrape http://example.org/t now").toList)
          (fun _ => .exn (("boom").toList))) none none =
      pre ++ ((("Error scraping data: ").toList) ++ (("boom").toList)) :=
  c7_theorem (("Please scrape http://example.org/t now").toList)
    (fun _ => .exn (("boom").toList)) (("http://example.org/t").toList)
    (("boom").toList) rfl rfl rfl

/-! ### C8 — the scraped-row cap -/

/-- C8: for every scraped table, at most 100 data rows are serialized
into the scraped-data block (100 is the configured cap), and rows beyond
the first 100 never change the serialization — they are dropped, not an
error. -/
theorem c8_theorem (tbl rows extra : List (List (List Char))) :
    (serializedDataRows (processedRows tbl)).length ≤ 100 ∧
    (100 ≤ rows.length →
      serializedDataRows (rows ++ extra) = serializedDataRows rows) := by
  constructor
  · simp only [serializedDataRows, List.length_map]
    exact List.length_take_le 100 _
  · intro h
    simp only [serializedDataRows]
    rw [List.take_append_of_le_length h]

/-- C8 witness: a 101-row source table serializes like its first 100
rows. -/
theorem c8_witness :
    (serializedDataRows (processedRows [])).length ≤ 100 ∧
    serializedDataRows ((List.replicate 100 [['a']]) ++ [[['b']]]) =
      serializedDataRows (List.replicate 100 [['a']]) :=
  ⟨(c8_theorem [] [] []).1,
    (c8_theorem [] (List.replicate 100 [['a']]) [[['b']]]).2 (by simp)⟩

/-! ### C9 — trigger without a URL -/

/-- C9: when the trigger condition holds but the request text contains no
URL-shaped substring, the scraped data stays empty and the fetch oracle
is never consulted (the phase's result is the same for every oracle), and
no error is raised — the phase is a total function. -/
theorem c9_theorem (qt : List Char) (f1 f2 : List Char → FetchResult)
    (htr : scrape_trigger qt = true) (hu : url_search qt = none) :
    scrape_phase qt f1 = [] ∧ scrape_phase qt f1 = scrape_phase qt f2 := by
  have h : ∀ f : List Char → FetchResult, scrape_phase qt f = [] := by
    intro f
    simp only [scrape_phase, htr, if_true, hu]
  exact ⟨h f1, (h f1).trans (h f2).symm⟩

/-- C9 witness: a scrape request with no URL. -/
theorem c9_witness :
    scrape_phase (("please scrape the table").toList) (fun _ => .exn []) = [] ∧
    scrape_phase (("please scrape the table").toList) (fun _ => .exn []) =
      scrape_phase (("please scrape the table").toList) (fun _ => .page none) :=
  c9_theorem (("please scrape the table").toList) (fun _ => .exn [])
    (fun _ => .page none) rfl rfl

/-! ### C10 — dangling fence markers -/

/-- C10: if the text contains an opening fence marker (`` ```json `` or
`` ``` ``) but no closing `` ``` `` after it, fence stripping leaves the
text completely unmodified, and the later tiers therefore operate on the
original text. -/
theorem c10_theorem (text : List Char)
    (h : (∃ i, pyFind text jsonFenceMark 0 = some i ∧
            pyFind text fenceMark (i + 7) = none) ∨
         (pyFind text jsonFenceMark 0 = none ∧
           ∃ j, pyFind text fenceMark 0 = some j ∧
             pyFind text fenceMark (j + 3) = none)) :
    stripFences text = text ∧
    extract_json_from_text text = recover_from_cleaned text := by
  have hs : stripFences text = text := by
    rcases h with ⟨i, h1, h2⟩ | ⟨h1, j, h2, h3⟩
    · simp only [stripFences, h1, h2]
    · simp only [stripFences, h1, h2, h3]
  exact ⟨hs, by rw [extract_json_from_text, hs]⟩

/-- C10 witness: a dangling `` ```json `` marker. -/
theorem c10_witness :
    stripFences (("```json [1").toList) = ("```json [1").toList ∧
    extract_json_from_text (("```json [1").toList) =
      recover_from_cleaned (("```json [1").toList) :=
  c10_theorem (("```json [1").toList) (Or.inl ⟨0, rfl, rfl⟩)

